import Mathlib

/-!
Shallow embedding of the talk2gemini key-pool manager and streaming proxy.

Part 1 models `api_key_manager.py` (the SQLite-backed `APIKeyManager`):
tables become lists of rows, timestamps become natural-number seconds, and
each method becomes a state-passing function.  Part 2 models `config.py`'s
JSON-backed `APIKeyManager` together with the proxy loop of `app.py`
(`stream_gemini_response` and the `/stream` route), which is the manager the
application actually imports.
-/

namespace SqlPool

/-- A row of the `api_keys` table (`key`, `key_type`, `is_active`). -/
structure KeyRow where
  key : String
  keyType : String
  isActive : Bool
deriving DecidableEq, Repr

/-- A row of the `key_stats` table.  `errorCounts` models the JSON map
stored in the `error_counts` column, keyed by error code. -/
structure StatRow where
  key : String
  totalRequests : Nat
  successfulRequests : Nat
  failedRequests : Nat
  consecutiveFailures : Nat
  lastUsed : Option Nat
  lastSuccess : Option Nat
  lastErrorCode : Option Int
  lastErrorTime : Option Nat
  errorCounts : List (Int × Nat)
deriving DecidableEq, Repr

/-- A row of the `rate_limits` table. -/
structure RateRow where
  key : String
  requestTime : Nat
deriving DecidableEq, Repr

/-- A row of the `suspended_keys` table (`key` is its primary key). -/
structure SuspRow where
  key : String
  resumeTime : Nat
  reason : String
deriving DecidableEq, Repr

/-- The SQLite database state owned by the manager, plus the
`free_key_consecutive_failures` entry of `global_state` (the in-memory
mirror is updated in the same critical section, so one field models both). -/
structure MgrState where
  apiKeys : List KeyRow
  keyStats : List StatRow
  rateLimits : List RateRow
  suspendedKeys : List SuspRow
  freeFailures : Nat
deriving DecidableEq, Repr

/-- The configuration options read in `APIKeyManager.__init__`. -/
structure MgrConfig where
  cooldownSeconds : Nat
  requestsPerMinute : Nat
  requestsPerDay : Nat
  maxFreeKeyFailures : Nat
deriving DecidableEq, Repr

/-- A fresh `key_stats` row with the schema's column defaults. -/
def defaultStat (k : String) : StatRow :=
  { key := k, totalRequests := 0, successfulRequests := 0, failedRequests := 0,
    consecutiveFailures := 0, lastUsed := none, lastSuccess := none,
    lastErrorCode := none, lastErrorTime := none, errorCounts := [] }

/-- `_cleanup_expired_data`: delete suspensions with `resume_time <= now` and
rate rows with `request_time < now - 24h` (86400 s). -/
def cleanupExpiredData (now : Nat) (s : MgrState) : MgrState :=
  { s with
    suspendedKeys := s.suspendedKeys.filter fun r => decide (now < r.resumeTime)
    rateLimits := s.rateLimits.filter fun r => decide (now ≤ r.requestTime + 86400) }

/-- `_check_rate_limit`: the per-minute count is the number of rate rows for
the key with `request_time > now - 60`, the per-day count those with
`request_time > now - 24h`; both must be below the configured caps. -/
def checkRateLimit (cfg : MgrConfig) (k : String) (now : Nat) (s : MgrState) : Bool :=
  let minuteCount :=
    (s.rateLimits.filter fun r => decide (r.key = k) && decide (now < r.requestTime + 60)).length
  if cfg.requestsPerMinute ≤ minuteCount then false
  else
    let dayCount :=
      (s.rateLimits.filter fun r => decide (r.key = k) && decide (now < r.requestTime + 86400)).length
    decide (dayCount < cfg.requestsPerDay)

/-- `_is_key_suspended`: a suspension row for the key with `resume_time > now`. -/
def isKeySuspended (k : String) (now : Nat) (s : MgrState) : Bool :=
  s.suspendedKeys.any fun r => decide (r.key = k) && decide (now < r.resumeTime)

/-- `_is_key_available`: active, not suspended, and under the rate caps. -/
def isKeyAvailable (cfg : MgrConfig) (k : String) (now : Nat) (s : MgrState) : Bool :=
  (s.apiKeys.any fun r => decide (r.key = k) && r.isActive)
    && !(isKeySuspended k now s)
    && checkRateLimit cfg k now s

/-- `_mark_key_used`: increment `total_requests` and set `last_used = now`.
It inserts nothing into `rate_limits`. -/
def markKeyUsed (k : String) (now : Nat) (s : MgrState) : MgrState :=
  { s with keyStats := s.keyStats.map fun r =>
      if r.key = k then
        { r with totalRequests := r.totalRequests + 1, lastUsed := some now }
      else r }

/-- The ordering annotation computed by the selection query:
`(consecutive_failures, requests_in_last_24h, total_requests)`. -/
def rowInfo (now : Nat) (s : MgrState) (k : KeyRow) : Nat × Nat × Nat :=
  let stat := (s.keyStats.find? fun r => decide (r.key = k.key)).getD (defaultStat k.key)
  let recent :=
    (s.rateLimits.filter fun r => decide (r.key = k.key) && decide (now < r.requestTime + 86400)).length
  (stat.consecutiveFailures, recent, stat.totalRequests)

/-- Lexicographic comparison on the ordering triple. -/
def tripleLe (a b : Nat × Nat × Nat) : Bool :=
  decide (a.1 < b.1) ||
    (decide (a.1 = b.1) &&
      (decide (a.2.1 < b.2.1) || (decide (a.2.1 = b.2.1) && decide (a.2.2 ≤ b.2.2))))

/-- Deterministic insertion sort on annotated rows (`ORDER BY` of the
selection query; ties broken deterministically as the spec allows). -/
def insertRow (a : (Nat × Nat × Nat) × KeyRow) :
    List ((Nat × Nat × Nat) × KeyRow) → List ((Nat × Nat × Nat) × KeyRow)
  | [] => [a]
  | b :: t => if tripleLe a.1 b.1 then a :: b :: t else b :: insertRow a t

def sortRows : List ((Nat × Nat × Nat) × KeyRow) → List ((Nat × Nat × Nat) × KeyRow)
  | [] => []
  | a :: t => insertRow a (sortRows t)

/-- The candidate rows of `get_key`'s query: active keys of the target tier
that have no live suspension, ordered by the triple. -/
def candidateRows (usePaid : Bool) (now : Nat) (s : MgrState) : List KeyRow :=
  let tier := if usePaid then "paid" else "free"
  let rows := s.apiKeys.filter fun k =>
    k.isActive && decide (k.keyType = tier)
      && !(s.suspendedKeys.any fun r => decide (r.key = k.key) && decide (now < r.resumeTime))
  (sortRows (rows.map fun k => (rowInfo now s k, k))).map Prod.snd

/-- The scan of `get_key`: the first candidate that is not the preferred key
and passes `_check_rate_limit`. -/
def selectKey (cfg : MgrConfig) (pref : Option String) (usePaid : Bool)
    (now : Nat) (s : MgrState) : Option String :=
  ((candidateRows usePaid now s).find? fun k =>
      !(decide (pref = some k.key)) && checkRateLimit cfg k.key now s).map KeyRow.key

/-- `get_key` with `force_paid=True` (the recursive call of the source; in
this case the free-tier fallback branch is dead, so there is no recursion). -/
def getKeyForced (cfg : MgrConfig) (pref : Option String) (now : Nat)
    (s : MgrState) : Option (String × MgrState) :=
  let s1 := cleanupExpiredData now s
  match pref with
  | some p =>
    if p ≠ "" ∧ isKeyAvailable cfg p now s1 then some (p, markKeyUsed p now s1)
    else
      match selectKey cfg pref true now s1 with
      | some k => some (k, markKeyUsed k now s1)
      | none => none
  | none =>
    match selectKey cfg pref true now s1 with
    | some k => some (k, markKeyUsed k now s1)
    | none => none

/-- `get_key`: cleanup, tier decision
(`use_paid = force_paid or failures >= max_free_key_failures`), preferred-key
fast path, ordered scan, free→paid fallback via the recursive call, and
`None` for the `NoAvailableKeysError` outcome. -/
def getKey (cfg : MgrConfig) (pref : Option String) (forcePaid : Bool)
    (now : Nat) (s : MgrState) : Option (String × MgrState) :=
  let s1 := cleanupExpiredData now s
  let usePaid := forcePaid || decide (cfg.maxFreeKeyFailures ≤ s1.freeFailures)
  let scanned :=
    match pref with
    | some p =>
      if p ≠ "" ∧ isKeyAvailable cfg p now s1 then some (p, markKeyUsed p now s1)
      else
        match selectKey cfg pref usePaid now s1 with
        | some k => some (k, markKeyUsed k now s1)
        | none => none
    | none =>
      match selectKey cfg pref usePaid now s1 with
      | some k => some (k, markKeyUsed k now s1)
      | none => none
  match scanned with
  | some r => some r
  | none => if usePaid then none else getKeyForced cfg pref now s1

/-- Increment the JSON error-count entry for a code (inserting it at 1),
as `record_failure` does with `error_counts[str(error_code)]`; the map is an
association list standing for a Python dict, so the entry for a code is
unique and the update touches the first (only) occurrence. -/
def bumpCount : List (Int × Nat) → Int → List (Int × Nat)
  | [], c => [(c, 1)]
  | p :: t, c => if p.1 = c then (p.1, p.2 + 1) :: t else p :: bumpCount t c

/-- The sum of the values of an error-count map. -/
def sumCounts (m : List (Int × Nat)) : Nat := (m.map Prod.snd).sum

/-- `record_success`: insert a `rate_limits` row, bump `successful_requests`,
reset `consecutive_failures`, set `last_success`; a success of a `free` key
resets the global failure counter.  The `key_type` lookup raises on an
unknown key before the transaction commits, leaving the state unchanged. -/
def recordSuccess (k : String) (now : Nat) (s : MgrState) : MgrState :=
  match s.apiKeys.find? fun r => decide (r.key = k) with
  | none => s
  | some row =>
    { s with
      rateLimits := s.rateLimits ++ [{ key := k, requestTime := now }]
      keyStats := s.keyStats.map fun r =>
        if r.key = k then
          { r with successfulRequests := r.successfulRequests + 1,
                   consecutiveFailures := 0, lastSuccess := some now }
        else r
      freeFailures := if row.keyType = "free" then 0 else s.freeFailures }

/-- `record_failure`: when the stats/keys join finds the key, bump
`failed_requests` and `consecutive_failures`, record the error code and time,
bump the error-count map, and for a `free` key increment the global
`free_key_consecutive_failures`; otherwise do nothing. -/
def recordFailure (k : String) (code : Int) (now : Nat) (s : MgrState) : MgrState :=
  match s.keyStats.find? fun r => decide (r.key = k),
        s.apiKeys.find? fun r => decide (r.key = k) with
  | some stat, some keyRow =>
    { s with
      keyStats := s.keyStats.map fun r =>
        if r.key = k then
          { r with failedRequests := r.failedRequests + 1,
                   consecutiveFailures := stat.consecutiveFailures + 1,
                   lastErrorCode := some code, lastErrorTime := some now,
                   errorCounts := bumpCount stat.errorCounts code }
        else r
      freeFailures :=
        if keyRow.keyType = "free" then s.freeFailures + 1 else s.freeFailures }
  | _, _ => s

/-- `temporarily_suspend_key`: upsert a suspension row with
`resume_time = now + duration` (`duration_seconds or cooldown_seconds`,
so a falsy `0` also falls back to the configured cooldown). -/
def temporarilySuspendKey (cfg : MgrConfig) (k : String) (durationSeconds : Option Nat)
    (now : Nat) (s : MgrState) : MgrState :=
  let duration :=
    match durationSeconds with
    | some d => if d = 0 then cfg.cooldownSeconds else d
    | none => cfg.cooldownSeconds
  let row : SuspRow := { key := k, resumeTime := now + duration, reason := "temporary" }
  { s with suspendedKeys :=
      if s.suspendedKeys.any fun r => decide (r.key = k) then
        s.suspendedKeys.map fun r => if r.key = k then row else r
      else s.suspendedKeys ++ [row] }

/-- `mark_key_invalid`: when the key exists, set `is_active = 0` and delete
its suspension rows (the tier files are rewritten outside the store). -/
def markKeyInvalid (k : String) (s : MgrState) : MgrState :=
  if s.apiKeys.any fun r => decide (r.key = k) then
    { s with
      apiKeys := s.apiKeys.map fun r => if r.key = k then { r with isActive := false } else r
      suspendedKeys := s.suspendedKeys.filter fun r => !(decide (r.key = k)) }
  else s

/-- The state effect of `get_status`: only the cleanup step mutates. -/
def getStatusState (now : Nat) (s : MgrState) : MgrState :=
  cleanupExpiredData now s

/-- Deduplicate a key file's lines keeping first occurrences (the files are
read into Python sets; any deterministic order is equivalent here). -/
def dedupKeepFirst : List String → List String
  | [] => []
  | a :: t => a :: dedupKeepFirst (t.filter fun b => !(decide (b = a)))
termination_by l => l.length
decreasing_by
  exact Nat.lt_succ_of_le (List.length_filter_le _ _)

/-- `INSERT OR IGNORE INTO api_keys`: a no-op when any row (even an
inactive one) already has the key. -/
def insertIgnoreKey (k tier : String) (s : MgrState) : MgrState :=
  if s.apiKeys.any fun r => decide (r.key = k) then s
  else { s with apiKeys := s.apiKeys ++ [{ key := k, keyType := tier, isActive := true }] }

/-- `INSERT OR IGNORE INTO key_stats` with the column defaults. -/
def insertIgnoreStat (k : String) (s : MgrState) : MgrState :=
  if s.keyStats.any fun r => decide (r.key = k) then s
  else { s with keyStats := s.keyStats ++ [defaultStat k] }

/-- Insert every new key of a tier together with its stats row. -/
def syncInsertNew (tier : String) (ks : List String) (s : MgrState) : MgrState :=
  ks.foldl (fun st k => insertIgnoreStat k (insertIgnoreKey k tier st)) s

/-- The paid file's tokens after blank-stripping and deduplication. -/
def syncPaidKeys (rawPaid : List String) : List String :=
  dedupKeepFirst (rawPaid.filter fun l => !(decide (l = "")))

/-- The free file's tokens after blank-stripping, deduplication and removal
of tokens that also appear in the paid file. -/
def syncFreeKeys (rawFree rawPaid : List String) : List String :=
  (dedupKeepFirst (rawFree.filter fun l => !(decide (l = "")))).filter
    fun k => !((syncPaidKeys rawPaid).any fun p => decide (p = k))

/-- Membership in the sync's snapshot of active database keys. -/
def syncInDb (s : MgrState) (k : String) : Bool :=
  (s.apiKeys.filter KeyRow.isActive).any fun r => decide (r.key = k)

/-- `_sync_keys_with_files`, applied to the two files' lines: strip blanks,
deduplicate, drop free∩paid from the free side, insert new keys, update the
tier of existing active keys, and deactivate active keys absent from both
files. -/
def syncKeys (rawFree rawPaid : List String) (s : MgrState) : MgrState :=
  let paidKs := syncPaidKeys rawPaid
  let freeKs := syncFreeKeys rawFree rawPaid
  let dbKeys := s.apiKeys.filter KeyRow.isActive
  let inDb (k : String) : Bool := syncInDb s k
  let dbType (k : String) : Option String :=
    (dbKeys.find? fun r => decide (r.key = k)).map KeyRow.keyType
  let s1 := syncInsertNew "free" (freeKs.filter fun k => !(inDb k)) s
  let s2 := syncInsertNew "paid" (paidKs.filter fun k => !(inDb k)) s1
  let s3 := { s2 with apiKeys := s2.apiKeys.map fun (r : KeyRow) =>
      if (freeKs.any fun k => decide (k = r.key)) ∧ inDb r.key ∧ dbType r.key ≠ some "free" then
        { r with keyType := "free" }
      else r }
  let s4 := { s3 with apiKeys := s3.apiKeys.map fun (r : KeyRow) =>
      if (paidKs.any fun k => decide (k = r.key)) ∧ inDb r.key ∧ dbType r.key ≠ some "paid" then
        { r with keyType := "paid" }
      else r }
  { s4 with apiKeys := s4.apiKeys.map fun (r : KeyRow) =>
      if inDb r.key ∧ !(freeKs.any fun k => decide (k = r.key))
          ∧ !(paidKs.any fun k => decide (k = r.key)) then
        { r with isActive := false }
      else r }

/-- The public operations of the key-pool manager. -/
inductive MgrOp where
  | acquire (pref : Option String) (forcePaid : Bool)
  | success (k : String)
  | failure (k : String) (code : Int)
  | suspend (k : String) (duration : Option Nat)
  | invalidate (k : String)
  | status
  | sync (rawFree rawPaid : List String)
deriving DecidableEq, Repr

/-- The state effect of one public operation.  A failed `acquire`
(`NoAvailableKeysError`) still commits the cleanup step it ran first. -/
def applyOp (cfg : MgrConfig) (now : Nat) (op : MgrOp) (s : MgrState) : MgrState :=
  match op with
  | .acquire pref forcePaid =>
    match getKey cfg pref forcePaid now s with
    | some r => r.2
    | none => cleanupExpiredData now s
  | .success k => recordSuccess k now s
  | .failure k code => recordFailure k code now s
  | .suspend k d => temporarilySuspendKey cfg k d now s
  | .invalidate k => markKeyInvalid k s
  | .status => getStatusState now s
  | .sync rawFree rawPaid => syncKeys rawFree rawPaid s

/-- The referential invariant of the `suspended_keys` table: every suspended
token has a row in `api_keys` (the declared foreign key). -/
def fkInvB (s : MgrState) : Bool :=
  s.suspendedKeys.all fun r => s.apiKeys.any fun kr => decide (kr.key = r.key)

/-- The accounting invariant: every stats row's error-count map sums to its
`failed_requests` counter. -/
def errSumInvB (s : MgrState) : Bool :=
  s.keyStats.all fun r => decide (sumCounts r.errorCounts = r.failedRequests)

/-- The `key_stats` primary-key constraint: at most one row per key. -/
@[reducible]
def statKeysNodup (s : MgrState) : Prop :=
  (s.keyStats.map StatRow.key).Nodup

end SqlPool

namespace JsonPool

/-- The state of `config.py`'s `APIKeyManager`: the in-memory key list, the
suspension dictionary persisted to JSON, and the round-robin cursor. -/
structure PoolState where
  apiKeys : List String
  suspendedKeys : List (String × Nat)
  currentIndex : Nat
deriving DecidableEq, Repr

/-- `_cleanup_expired_suspensions`: keep entries with `resume_time > now`. -/
def cleanupPool (now : Nat) (p : PoolState) : PoolState :=
  { p with suspendedKeys := p.suspendedKeys.filter fun e => decide (now < e.2) }

/-- `_is_key_suspended`: look the key up in the dictionary; an expired entry
is deleted on the spot and the key reported not suspended. -/
def poolIsSuspendedM (k : String) (now : Nat) (p : PoolState) : Bool × PoolState :=
  match p.suspendedKeys.find? fun e => decide (e.1 = k) with
  | some e =>
    if e.2 ≤ now then
      (false, { p with suspendedKeys := p.suspendedKeys.eraseP fun e' => decide (e'.1 = k) })
    else (true, p)
  | none => (false, p)

/-- The round-robin scan of `get_key`: probe `(current_index + i) % len` for
`i = 0 .. len-1`, skipping the preferred key, threading the dictionary
mutations of `_is_key_suspended`; on success advance the cursor. -/
def poolScanAux (pref : Option String) (now len : Nat) :
    Nat → PoolState → Except String String × PoolState
  | 0, p => (.error "所有密钥均处于冷却期，请稍后再试。", p)
  | remaining + 1, p =>
    let i := len - (remaining + 1)
    let idx := (p.currentIndex + i) % len
    let key := p.apiKeys.getD idx ""
    if pref = some key then poolScanAux pref now len remaining p
    else
      match poolIsSuspendedM key now p with
      | (true, p') => poolScanAux pref now len remaining p'
      | (false, p') => (.ok key, { p' with currentIndex := (idx + 1) % len })

/-- `get_key` of `config.py`: empty-pool error, sticky preferred key when
present and not suspended, then the round-robin scan. -/
def poolGetKey (pref : Option String) (now : Nat) (p : PoolState) :
    Except String String × PoolState :=
  if p.apiKeys.isEmpty then (.error "密钥池为空，请在文件中添加密钥。", p)
  else
    let tryScan (p' : PoolState) := poolScanAux pref now p'.apiKeys.length p'.apiKeys.length p'
    match pref with
    | some q =>
      if q ≠ "" ∧ q ∈ p.apiKeys then
        match poolIsSuspendedM q now p with
        | (false, p') => (.ok q, p')
        | (true, p') => tryScan p'
      else tryScan p
    | none => tryScan p

/-- `temporarily_suspend_key`: when the key is pooled, upsert its resume
time at `now + cooldown_seconds`. -/
def poolSuspend (cooldown : Nat) (k : String) (now : Nat) (p : PoolState) : PoolState :=
  if k ∈ p.apiKeys then
    { p with suspendedKeys :=
        if p.suspendedKeys.any fun e => decide (e.1 = k) then
          p.suspendedKeys.map fun e => if e.1 = k then (k, now + cooldown) else e
        else p.suspendedKeys ++ [(k, now + cooldown)] }
  else p

/-- `mark_key_invalid`: remove the key from the pool and from the suspension
dictionary, clamping the cursor back to 0 when it falls off the end. -/
def poolInvalidate (k : String) (p : PoolState) : PoolState :=
  if k ∈ p.apiKeys then
    let keys' := p.apiKeys.erase k
    let susp' := p.suspendedKeys.eraseP fun e => decide (e.1 = k)
    let idx' := if keys'.length ≤ p.currentIndex ∧ keys' ≠ [] then 0 else p.currentIndex
    { apiKeys := keys', suspendedKeys := susp', currentIndex := idx' }
  else p

/-- The dictionary returned by `get_status` of `config.py`. -/
structure PoolStatus where
  totalKeysInPool : Nat
  availableKeys : Nat
  suspendedKeysCount : Nat
deriving DecidableEq, Repr

/-- `get_status`: cleanup, then report pool size, pool size minus suspension
count, and the suspension count. -/
def poolStatus (now : Nat) (p : PoolState) : PoolStatus × PoolState :=
  let p' := cleanupPool now p
  (⟨p'.apiKeys.length, p'.apiKeys.length - p'.suspendedKeys.length,
    p'.suspendedKeys.length⟩, p')

end JsonPool

namespace Proxy

open JsonPool

/-- The key-state transition the proxy applies to a failing key. -/
inductive KeyAction where
  | suspendKey
  | invalidateKey
deriving DecidableEq, Repr

/-- The status dispatch of `stream_gemini_response`'s `HTTPError` handler:
429 suspends, 400/403 invalidate, 500+ suspends, anything else invalidates.
No failure is recorded: the manager in use has no such operation. -/
def httpErrorAction (status : Nat) : KeyAction :=
  if status = 429 then .suspendKey
  else if status = 400 ∨ status = 403 then .invalidateKey
  else if 500 ≤ status then .suspendKey
  else .invalidateKey

/-- Apply a key action to the pool. -/
def applyKeyAction (a : KeyAction) (cooldown : Nat) (k : String) (now : Nat)
    (p : PoolState) : PoolState :=
  match a with
  | .suspendKey => poolSuspend cooldown k now p
  | .invalidateKey => poolInvalidate k p

/-- One server-sent event as emitted by the generator. -/
inductive SseEvent where
  | data (text : String)
  | errorEvt (text : String)
  | done
deriving DecidableEq, Repr

/-- A chat-history turn (role plus the concatenated text of its parts). -/
structure Turn where
  role : String
  text : String
deriving DecidableEq, Repr

/-- The observable outcome of one upstream streaming request. -/
inductive AttemptResult where
  | success (text : String)
  | httpError (status : Nat)
  | protoError
deriving DecidableEq, Repr

/-- The mutable state of the retry loop of `stream_gemini_response`. -/
structure ProxySt where
  pool : PoolState
  lastKey : Option String
  events : List SseEvent
  bot : String
  acquires : Nat
  attempts : Nat
deriving DecidableEq, Repr

/-- The retry loop (`for attempt in range(max_retries)`), with the upstream
outcome of each attempt supplied by the environment `env`.  Recursion is on
the remaining iteration budget; `acquires` counts successful `get_key`
calls and `attempts` entered loop iterations. -/
def proxyAttempts (cooldown now maxRetries : Nat) (env : Nat → AttemptResult) :
    Nat → ProxySt → ProxySt
  | 0, st => st
  | remaining + 1, st =>
    let attemptIdx := maxRetries - (remaining + 1)
    let st := { st with attempts := st.attempts + 1 }
    match poolGetKey st.lastKey now st.pool with
    | (.error msg, p') =>
      let errText := "错误: " ++ msg
      { st with pool := p', events := st.events ++ [.data errText], bot := errText }
    | (.ok key, p') =>
      let st := { st with pool := p', acquires := st.acquires + 1 }
      match env attemptIdx with
      | .success text =>
        { st with events := st.events ++ [.data text], bot := st.bot ++ text,
                  lastKey := some key }
      | .httpError status =>
        let pool2 := applyKeyAction (httpErrorAction status) cooldown key now st.pool
        let st := { st with pool := pool2 }
        let st :=
          if remaining = 0 then
            let errText := "所有密钥均尝试失败。最后错误状态码: " ++ toString status
            { st with events := st.events ++ [.data errText], bot := errText }
          else st
        proxyAttempts cooldown now maxRetries env remaining st
      | .protoError =>
        let errText := "处理流失败: 未知错误"
        { st with events := st.events ++ [.data errText], bot := errText }

/-- The full outcome of one generator run. -/
structure RunResult where
  events : List SseEvent
  history : List Turn
  pool : PoolState
  lastKey : Option String
  acquires : Nat
  attempts : Nat
deriving DecidableEq, Repr

/-- `stream_gemini_response`: read `total_keys_in_pool` from `get_status`,
fail fast when it is 0 (returning before the history-append block), run the
retry loop, append the accumulated bot text as a `model` turn when it is
nonempty and the last turn is a user turn (or the history is empty), and
terminate with the `[DONE]` event. -/
def runProxy (cooldown now : Nat) (env : Nat → AttemptResult) (p : PoolState)
    (lastKey : Option String) (hist : List Turn) : RunResult :=
  let st0 := poolStatus now p
  let maxRetries := st0.1.totalKeysInPool
  if maxRetries = 0 then
    { events := [.data "错误：密钥池中没有可用的密钥。", .done], history := hist,
      pool := st0.2, lastKey := lastKey, acquires := 0, attempts := 0 }
  else
    let st := proxyAttempts cooldown now maxRetries env maxRetries
      { pool := st0.2, lastKey := lastKey, events := [], bot := "",
        acquires := 0, attempts := 0 }
    let pFinal := (poolStatus now st.pool).2
    let hist' :=
      if st.bot ≠ "" ∧ (hist = [] ∨ (hist.getLast?.map Turn.role) = some "user") then
        hist ++ [{ role := "model", text := st.bot }]
      else hist
    { events := st.events ++ [.done], history := hist', pool := pFinal,
      lastKey := st.lastKey, acquires := st.acquires, attempts := st.attempts }

/-- The `/stream` route: when the history is empty or its last turn is not a
user turn, return the fixed error stream (one `event: error` then `[DONE]`)
without touching the manager or the history; otherwise run the generator on
a snapshot of the history. -/
def streamRoute (cooldown now : Nat) (env : Nat → AttemptResult) (p : PoolState)
    (lastKey : Option String) (hist : List Turn) : RunResult :=
  if hist = [] ∨ (hist.getLast?.map Turn.role) ≠ some "user" then
    { events := [.errorEvt "错误：无法开始流，聊天历史状态异常。", .done],
      history := hist, pool := p, lastKey := lastKey, acquires := 0, attempts := 0 }
  else runProxy cooldown now env p lastKey hist

/-- The retry loop, started with this iteration budget, pool and preferred
key, reaches an iteration whose `get_key` raises `NoAvailableKeysError`
with the given message.  This mirrors the loop's control flow: the only
branch that continues into a later iteration is a non-final HTTP error,
which applies the status dispatch to the key and leaves the preferred key
unchanged. -/
def loopRaises (cooldown now maxRetries : Nat) (env : Nat → AttemptResult) :
    Nat → PoolState → Option String → String → Bool
  | 0, _, _, _ => false
  | remaining + 1, p, lk, msg =>
    match poolGetKey lk now p with
    | (.error m, _) => decide (m = msg)
    | (.ok key, p') =>
      match env (maxRetries - (remaining + 1)) with
      | .httpError status =>
        decide (remaining ≠ 0) &&
          loopRaises cooldown now maxRetries env remaining
            (applyKeyAction (httpErrorAction status) cooldown key now p') lk msg
      | _ => false

end Proxy

namespace SqlPool

/-- The default configuration of `config.yaml`'s documented values. -/
def cfgDefault : MgrConfig := ⟨300, 5, 100, 6⟩

/-- A pool with a single active free key `a` and fresh statistics. -/
def oneFreeKeyState : MgrState :=
  ⟨[⟨"a", "free", true⟩], [defaultStat "a"], [], [], 0⟩

/-- One acquisition step: run `get_key` and keep the resulting state. -/
def acquireStep (cfg : MgrConfig) (t : Nat) (s : MgrState) : Option MgrState :=
  (getKey cfg none false t s).map Prod.snd

/-- One acquisition immediately followed by `record_success` on the key it
returned, at the same timestamp. -/
def successStep (cfg : MgrConfig) (t : Nat) (s : MgrState) : Option MgrState :=
  (getKey cfg none false t s).map fun r => recordSuccess r.1 t r.2

/-- Five bare acquisitions of the single key within one minute
(timestamps 0, 10, 20, 30, 40), then a sixth `get_key` at second 50. -/
def sixthAcquireKey : Option String := do
  let s1 ← acquireStep cfgDefault 0 oneFreeKeyState
  let s2 ← acquireStep cfgDefault 10 s1
  let s3 ← acquireStep cfgDefault 20 s2
  let s4 ← acquireStep cfgDefault 30 s3
  let s5 ← acquireStep cfgDefault 40 s4
  (getKey cfgDefault none false 50 s5).map Prod.fst

/-- Five acquisitions each followed by `record_success` (timestamps 0..4). -/
def fiveSuccessState : Option MgrState := do
  let s1 ← successStep cfgDefault 0 oneFreeKeyState
  let s2 ← successStep cfgDefault 1 s1
  let s3 ← successStep cfgDefault 2 s2
  let s4 ← successStep cfgDefault 3 s3
  successStep cfgDefault 4 s4

/-- The key `get_key` returns at the given time from the state after the
five successes. -/
def keyAfterFiveSuccesses (t : Nat) : Option (Option String) :=
  fiveSuccessState.map fun s => (getKey cfgDefault none false t s).map Prod.fst

/-- The `api_keys` row for the key exists and carries tier `free` (the
lookup `record_success` and `record_failure` perform). -/
def isFreeApiKey (s : MgrState) (k : String) : Bool :=
  match s.apiKeys.find? fun r => decide (r.key = k) with
  | some row => decide (row.keyType = "free")
  | none => false

/-- The key has both a stats row and a free `api_keys` row, i.e. the join of
`record_failure` finds it with `key_type = 'free'`. -/
def freeKeyKnown (s : MgrState) (k : String) : Bool :=
  (s.keyStats.any fun r => decide (r.key = k)) && isFreeApiKey s k

/-- The configuration of the spec's boundary scenario
(`max_free_key_failures = 3`). -/
def cfg3 : MgrConfig := ⟨300, 5, 100, 3⟩

/-- Three sequential failures recorded against the single free key. -/
def threeFailuresState : MgrState :=
  recordFailure "a" 500 2 (recordFailure "a" 500 1 (recordFailure "a" 500 0 oneFreeKeyState))

end SqlPool

namespace Proxy

open JsonPool

/-- A two-key pool whose key `b` is suspended until second 1000. -/
def twoKeyOneSuspended : PoolState := ⟨["a", "b"], [("b", 1000)], 0⟩

/-- A one-key pool whose only key is suspended until second 1000. -/
def oneKeySuspended : PoolState := ⟨["a"], [("a", 1000)], 0⟩

/-- An upstream that answers every attempt with HTTP 429. -/
def envAll429 : Nat → AttemptResult := fun _ => .httpError 429

/-- A chat history holding a single user turn. -/
def histOneUser : List Turn := [⟨"user", "hi"⟩]

/-- A pool with no keys at all. -/
def emptyPool : PoolState := ⟨[], [], 0⟩

end Proxy

section Theorems

open SqlPool JsonPool Proxy

/-- Filtering by a weaker predicate first does not change a filter. -/
theorem filter_filter_of_imp {α : Type} (l : List α) (p q : α → Bool)
    (h : ∀ a, q a = true → p a = true) :
    (l.filter p).filter q = l.filter q := by
  induction l with
  | nil => rfl
  | cons a t ih =>
    by_cases hq : q a = true
    · have hp := h a hq
      simp [List.filter, hp, hq, ih]
    · have hq' : q a = false := by revert hq; cases q a <;> simp
      cases hp : p a <;> simp [List.filter, hp, hq', ih]

/-- An `any` by a stronger predicate ignores a weaker pre-filter. -/
theorem any_filter_of_imp {α : Type} (l : List α) (p q : α → Bool)
    (h : ∀ a, q a = true → p a = true) :
    (l.filter p).any q = l.any q := by
  induction l with
  | nil => rfl
  | cons a t ih =>
    by_cases hq : q a = true
    · have hp := h a hq
      simp [List.filter, hp, hq, ih]
    · have hq' : q a = false := by revert hq; cases q a <;> simp
      cases hp : p a <;> simp [List.filter, hp, hq', ih]

theorem cleanup_apiKeys (now : Nat) (s : MgrState) :
    (cleanupExpiredData now s).apiKeys = s.apiKeys := rfl

theorem cleanup_keyStats (now : Nat) (s : MgrState) :
    (cleanupExpiredData now s).keyStats = s.keyStats := rfl

theorem cleanup_freeFailures (now : Nat) (s : MgrState) :
    (cleanupExpiredData now s).freeFailures = s.freeFailures := rfl

/-- The cleanup step is idempotent. -/
theorem cleanup_idem (now : Nat) (s : MgrState) :
    cleanupExpiredData now (cleanupExpiredData now s) = cleanupExpiredData now s := by
  simp only [cleanupExpiredData]
  rw [filter_filter_of_imp _ _ _ (fun a h => h), filter_filter_of_imp _ _ _ (fun a h => h)]

/-- Cleanup does not change whether a key counts as suspended. -/
theorem isKeySuspended_cleanup (k : String) (now : Nat) (s : MgrState) :
    isKeySuspended k now (cleanupExpiredData now s) = isKeySuspended k now s := by
  simp only [isKeySuspended, cleanupExpiredData]
  exact any_filter_of_imp _ _ _ (fun a h => by
    simp only [Bool.and_eq_true] at h; exact h.2)

/-- Cleanup does not change the rate-limit verdict: the deleted rows are
older than both windows. -/
theorem checkRateLimit_cleanup (cfg : MgrConfig) (k : String) (now : Nat) (s : MgrState) :
    checkRateLimit cfg k now (cleanupExpiredData now s) = checkRateLimit cfg k now s := by
  simp only [checkRateLimit, cleanupExpiredData]
  have h60 : ∀ a : RateRow,
      (decide (a.key = k) && decide (now < a.requestTime + 60)) = true →
      decide (now ≤ a.requestTime + 86400) = true := by
    intro a h
    simp only [Bool.and_eq_true, decide_eq_true_eq] at h
    exact decide_eq_true (by omega)
  have h24 : ∀ a : RateRow,
      (decide (a.key = k) && decide (now < a.requestTime + 86400)) = true →
      decide (now ≤ a.requestTime + 86400) = true := by
    intro a h
    simp only [Bool.and_eq_true, decide_eq_true_eq] at h
    exact decide_eq_true (by omega)
  simp only [filter_filter_of_imp _ _ _ h60, filter_filter_of_imp _ _ _ h24]

/-- Cleanup does not change availability. -/
theorem isKeyAvailable_cleanup (cfg : MgrConfig) (k : String) (now : Nat) (s : MgrState) :
    isKeyAvailable cfg k now (cleanupExpiredData now s) = isKeyAvailable cfg k now s := by
  simp only [isKeyAvailable, cleanup_apiKeys, isKeySuspended_cleanup, checkRateLimit_cleanup]

/-- C1 counterexample: on an HTTP status that is neither 429, 400, 403 nor a
5xx (here 418), the proxy invalidates the key rather than suspending it, so
the claimed "any other status suspends the key" transition is false. -/
theorem c1_other_status_not_suspended :
    httpErrorAction 418 = KeyAction.invalidateKey ∧
      httpErrorAction 418 ≠ KeyAction.suspendKey := by
  constructor <;> decide

/-- C1 (amended): the proxy's HTTP-error handler suspends the key exactly
for status 429 and statuses ≥ 500, and invalidates it otherwise (400, 403
and every other status); correspondingly the pool transition is a suspend
upsert or a permanent removal.  No `record_failure` is invoked: the manager
`app.py` imports has no such operation. -/
theorem c1_http_error_dispatch (status cooldown now : Nat) (k : String) (p : PoolState) :
    (httpErrorAction status = KeyAction.suspendKey ↔ (status = 429 ∨ 500 ≤ status)) ∧
      applyKeyAction (httpErrorAction status) cooldown k now p =
        (if status = 429 ∨ 500 ≤ status then poolSuspend cooldown k now p
         else poolInvalidate k p) := by
  unfold httpErrorAction applyKeyAction
  split_ifs with h1 h2 h3 <;> simp_all <;> omega

/-- C8: the `suspended_keys` table declares a foreign key into `api_keys`,
but `temporarily_suspend_key` inserts unconditionally and SQLite does not
enforce the constraint, so suspending a token the pool has never seen
creates a dangling suspension row: the referential invariant fails. -/
theorem c8_suspend_unknown_token_violates_fk :
    fkInvB oneFreeKeyState = true ∧
      fkInvB (temporarilySuspendKey cfgDefault "ghost" none 0 oneFreeKeyState) = false := by
  constructor <;> decide

/-- C10: when the chat history is empty or its last turn is not a user turn,
the `/stream` route answers with exactly one error event and the `[DONE]`
terminator, acquires no key, runs no loop iteration, and leaves the pool
and the history untouched. -/
theorem c10_stream_guard_error_stream (cooldown now : Nat) (env : Nat → AttemptResult)
    (p : PoolState) (lastKey : Option String) (hist : List Turn)
    (h : hist = [] ∨ (hist.getLast?.map Turn.role) ≠ some "user") :
    streamRoute cooldown now env p lastKey hist =
      { events := [.errorEvt "错误：无法开始流，聊天历史状态异常。", .done],
        history := hist, pool := p, lastKey := lastKey, acquires := 0, attempts := 0 } := by
  unfold streamRoute
  rw [if_pos h]

/-- Witness for C10 at the empty history. -/
theorem c10_stream_guard_witness :
    streamRoute 300 0 envAll429 twoKeyOneSuspended none [] =
      { events := [.errorEvt "错误：无法开始流，聊天历史状态异常。", .done],
        history := [], pool := twoKeyOneSuspended, lastKey := none,
        acquires := 0, attempts := 0 } :=
  c10_stream_guard_error_stream 300 0 envAll429 twoKeyOneSuspended none [] (Or.inl rfl)

/-- Whenever `get_key` returns a key, the returned state is exactly the
cleaned-up state with that key marked used. -/
theorem getKey_some_state (cfg : MgrConfig) (pref : Option String) (forcePaid : Bool)
    (now : Nat) (s : MgrState) (k : String) (s' : MgrState)
    (h : getKey cfg pref forcePaid now s = some (k, s')) :
    s' = markKeyUsed k now (cleanupExpiredData now s) := by
  unfold getKey getKeyForced at h
  simp only [cleanup_idem] at h
  cases pref <;> (repeat' split at h) <;> (try simp_all)
  all_goals (try (rename_i heq ; (repeat' split at heq) <;> simp_all))
  all_goals
    first
      | (rcases h with ⟨h1, h2⟩ ; rw [← h2, h1])
      | (rcases heq with ⟨h1, h2⟩ ; rw [← h2, h1])

/-- C2 counterexample: acquiring the single key of a fresh pool returns it
but leaves `rate_limits` empty — the mark-used step of `acquire` does not
insert a `rate_limits` row, so the table does not hold one row per
acquisition. -/
theorem c2_acquisition_inserts_no_rate_row :
    (getKey cfgDefault none false 0 oneFreeKeyState).map
        (fun r => (r.1, r.2.rateLimits)) = some ("a", []) := by
  decide

/-- C2 (amended): the mark-used step increments `total_requests` and sets
`last_used = now` but inserts no `rate_limits` row ("acquire" leaves the
table exactly as cleanup left it); the `rate_limits` row for the key with
`request_time = now` is instead inserted by `record_success`, so the table
holds one row per successful request, not one per acquisition. -/
theorem c2_rate_rows_from_record_success (k : String) (now : Nat) (s : MgrState) :
    ((markKeyUsed k now s).rateLimits = s.rateLimits)
    ∧ (∀ r ∈ s.keyStats, r.key = k →
        { r with totalRequests := r.totalRequests + 1, lastUsed := some now }
          ∈ (markKeyUsed k now s).keyStats)
    ∧ (∀ row, (s.apiKeys.find? fun r => decide (r.key = k)) = some row →
        (recordSuccess k now s).rateLimits
          = s.rateLimits ++ [{ key := k, requestTime := now }])
    ∧ (∀ cfg pref forcePaid k' s', getKey cfg pref forcePaid now s = some (k', s') →
        s'.rateLimits = (cleanupExpiredData now s).rateLimits) := by
  refine ⟨rfl, ?_, ?_, ?_⟩
  · intro r hr hk
    simp only [markKeyUsed, List.mem_map]
    exact ⟨r, hr, by rw [if_pos hk]⟩
  · intro row hrow
    simp only [recordSuccess, hrow]
  · intro cfg pref forcePaid k' s' h
    rw [getKey_some_state cfg pref forcePaid now s k' s' h]
    rfl

/-- Witness for C2 (amended) at the one-key pool. -/
theorem c2_rate_rows_witness :
    (markKeyUsed "a" 7 oneFreeKeyState).rateLimits = oneFreeKeyState.rateLimits
    ∧ (recordSuccess "a" 7 oneFreeKeyState).rateLimits
        = oneFreeKeyState.rateLimits ++ [{ key := "a", requestTime := 7 }] := by
  have h := c2_rate_rows_from_record_success "a" 7 oneFreeKeyState
  exact ⟨h.1, h.2.2.1 ⟨"a", "free", true⟩ (by decide)⟩

/-- C6 counterexample: five bare acquisitions of the single key at seconds
0–40 do not rate-limit it, and the sixth acquisition at second 50 — inside
the same 60-second window — still returns the key instead of skipping it:
acquisitions alone never insert the `rate_limits` rows the check counts. -/
theorem c6_sixth_acquisition_not_skipped :
    sixthAcquireKey = some "a" := by
  decide

/-- C6 (amended): with `requests_per_minute = 5`, after five acquisitions
each followed by `record_success` on the same key within 60 s (seconds 0–4),
a sixth acquisition attempt at second 59 skips the key (the pool raises
`NoAvailableKeysError`), and at second 61 the key is eligible again; the
per-minute window counts `record_success` insertions, not acquisitions. -/
theorem c6_rate_limit_on_successes :
    keyAfterFiveSuccesses 59 = some none
      ∧ keyAfterFiveSuccesses 61 = some (some "a") := by
  constructor <;> decide

/-- C3 counterexample: with two pooled keys of which one is suspended,
`status` reports 1 available key, yet on repeated 429s the retry loop runs
2 iterations — the bound is `total_keys_in_pool`, not `available_keys`. -/
theorem c3_loop_exceeds_available_keys :
    (runProxy 300 0 envAll429 twoKeyOneSuspended none histOneUser).attempts = 2
      ∧ (poolStatus 0 twoKeyOneSuspended).1.availableKeys = 1 := by
  constructor <;> decide

/-- C4 counterexample: when `acquire` raises `NoAvailableKeysError` on a
stream whose history is a single user turn, the generator stores the error
text in the bot buffer and the post-loop block appends it as a `model`
turn — the history does not remain "exactly the user turn". -/
theorem c4_error_appended_as_model_turn :
    (runProxy 300 0 envAll429 oneKeySuspended none histOneUser).history
      = [⟨"user", "hi"⟩, ⟨"model", "错误: 所有密钥均处于冷却期，请稍后再试。"⟩] := by
  decide

/-- Each loop iteration increments the attempt counter once, so the loop
executes at most its fuel many iterations. -/
theorem proxyAttempts_attempts_le (cooldown now maxRetries : Nat)
    (env : Nat → AttemptResult) :
    ∀ (fuel : Nat) (st : ProxySt),
      (proxyAttempts cooldown now maxRetries env fuel st).attempts ≤ st.attempts + fuel := by
  intro fuel
  induction fuel with
  | zero => intro st; simp [proxyAttempts]
  | succ n ih =>
    intro st
    simp only [proxyAttempts]
    split
    · simp
    · split
      · simp
      · split
        · exact le_trans (ih _) (by simp ; omega)
        · exact le_trans (ih _) (by simp ; omega)
      · simp

/-- C3 (amended): the retry loop of the proxy runs at most
`N = status().total_keys_in_pool` iterations, and when that count is 0 it
fails fast — one error `data` event plus `[DONE]`, no loop iteration and no
key acquired (`available_keys` plays no role in the bound). -/
theorem c3_retry_budget_total_keys (cooldown now : Nat) (env : Nat → AttemptResult)
    (p : PoolState) (lk : Option String) (hist : List Turn) :
    (runProxy cooldown now env p lk hist).attempts
        ≤ (poolStatus now p).1.totalKeysInPool
    ∧ ((poolStatus now p).1.totalKeysInPool = 0 →
        runProxy cooldown now env p lk hist =
          { events := [.data "错误：密钥池中没有可用的密钥。", .done], history := hist,
            pool := cleanupPool now p, lastKey := lk, acquires := 0, attempts := 0 }) := by
  simp only [runProxy]
  by_cases h : (poolStatus now p).1.totalKeysInPool = 0
  · simp only [if_pos h]
    exact ⟨by simp, fun _ => rfl⟩
  · simp only [if_neg h]
    refine ⟨?_, fun h0 => absurd h0 h⟩
    have hb := proxyAttempts_attempts_le cooldown now
      ((poolStatus now p).1.totalKeysInPool) env ((poolStatus now p).1.totalKeysInPool)
      { pool := (poolStatus now p).2, lastKey := lk, events := [], bot := "",
        acquires := 0, attempts := 0 }
    simpa using hb

/-- Witness for C3 (amended) at the empty pool. -/
theorem c3_retry_budget_witness :
    (runProxy 300 0 envAll429 emptyPool none []).attempts
        ≤ (poolStatus 0 emptyPool).1.totalKeysInPool
    ∧ runProxy 300 0 envAll429 emptyPool none [] =
        { events := [.data "错误：密钥池中没有可用的密钥。", .done], history := [],
          pool := cleanupPool 0 emptyPool, lastKey := none, acquires := 0, attempts := 0 } := by
  have h := c3_retry_budget_total_keys 300 0 envAll429 emptyPool none []
  exact ⟨h.1, h.2 (by decide)⟩

/-- The loop's error text is never the empty string. -/
theorem errText_ne_empty (msg : String) : ("错误: " ++ msg) ≠ "" := by
  intro h
  have hd := congrArg String.data h
  rw [String.data_append] at hd
  have h1 := (List.append_eq_nil.mp hd).1
  exact absurd h1 (by decide)

/-- Whenever the retry loop reaches an iteration whose `get_key` raises,
it emits exactly one `data` event carrying the error text, stores that text
in the bot buffer, and stops; the iterations before it (non-final HTTP
errors) emit nothing. -/
theorem proxyAttempts_raises (cooldown now maxRetries : Nat) (env : Nat → AttemptResult) :
    ∀ (fuel : Nat) (st : ProxySt) (msg : String),
      loopRaises cooldown now maxRetries env fuel st.pool st.lastKey msg = true →
      (proxyAttempts cooldown now maxRetries env fuel st).events
          = st.events ++ [.data ("错误: " ++ msg)]
      ∧ (proxyAttempts cooldown now maxRetries env fuel st).bot = "错误: " ++ msg := by
  intro fuel
  induction fuel with
  | zero => intro st msg h; simp [loopRaises] at h
  | succ n ih =>
    intro st msg h
    rcases hgk : poolGetKey st.lastKey now st.pool with ⟨m | key, p'⟩
    · simp only [loopRaises, hgk, decide_eq_true_eq] at h
      subst h
      simp [proxyAttempts, hgk]
    · simp only [loopRaises, hgk] at h
      cases henv : env (maxRetries - (n + 1)) with
      | success t => rw [henv] at h; simp at h
      | protoError => rw [henv] at h; simp at h
      | httpError status =>
        rw [henv] at h
        simp only [Bool.and_eq_true, decide_eq_true_eq] at h
        obtain ⟨hrem, hrec⟩ := h
        simp only [proxyAttempts, hgk, henv, if_neg hrem]
        exact ih _ msg hrec

/-- C4 (amended): if `acquire` raises `NoAvailableKeysError` at any
iteration of a client stream's retry loop, the generator emits one `data`
event carrying the error text followed by `[DONE]` and stops; the error
text is then appended to the chat history as a `model` turn (the last
existing turn being the user's), so the history becomes the user turn
followed by one model turn holding the error message. -/
theorem c4_no_keys_event_and_history (cooldown now : Nat) (env : Nat → AttemptResult)
    (p : PoolState) (lk : Option String) (hist : List Turn) (msg : String)
    (h1 : loopRaises cooldown now (poolStatus now p).1.totalKeysInPool env
        (poolStatus now p).1.totalKeysInPool (cleanupPool now p) lk msg = true)
    (h2 : hist = [] ∨ hist.getLast?.map Turn.role = some "user") :
    (runProxy cooldown now env p lk hist).events = [.data ("错误: " ++ msg), .done]
    ∧ (runProxy cooldown now env p lk hist).history
        = hist ++ [{ role := "model", text := "错误: " ++ msg }] := by
  have h0 : (poolStatus now p).1.totalKeysInPool ≠ 0 := by
    intro hz
    rw [hz] at h1
    simp [loopRaises] at h1
  have hrun := proxyAttempts_raises cooldown now ((poolStatus now p).1.totalKeysInPool) env
    ((poolStatus now p).1.totalKeysInPool)
    { pool := (poolStatus now p).2, lastKey := lk, events := [], bot := "",
      acquires := 0, attempts := 0 } msg h1
  have hbot : ("错误: " ++ msg) ≠ "" := errText_ne_empty msg
  simp only [runProxy, if_neg h0]
  rw [hrun.1, hrun.2]
  simp only [hbot, h2]
  simp [hbot]

/-- Witness for C4 (amended), with the raise at the second iteration: two
pooled keys, one pre-suspended, and an all-429 upstream — the first acquire
succeeds and its key is suspended, the second acquire raises. -/
theorem c4_no_keys_witness :
    (runProxy 300 0 envAll429 twoKeyOneSuspended none histOneUser).events
        = [.data ("错误: " ++ "所有密钥均处于冷却期，请稍后再试。"), .done]
    ∧ (runProxy 300 0 envAll429 twoKeyOneSuspended none histOneUser).history
        = histOneUser ++
            [{ role := "model", text := "错误: " ++ "所有密钥均处于冷却期，请稍后再试。" }] :=
  c4_no_keys_event_and_history 300 0 envAll429 twoKeyOneSuspended none
    histOneUser "所有密钥均处于冷却期，请稍后再试。" (by decide) (Or.inr rfl)

/-- C7: whenever `acquire` is called with a preferred key that is currently
available — active, not suspended, and under both rate caps — it returns
that key and marks it used, regardless of the key's tier, of `force_paid`,
and of the ordering over the other keys. -/
theorem c7_preferred_key_returned (cfg : MgrConfig) (p : String) (forcePaid : Bool)
    (now : Nat) (s : MgrState)
    (hp : p ≠ "") (h : isKeyAvailable cfg p now s = true) :
    getKey cfg (some p) forcePaid now s
      = some (p, markKeyUsed p now (cleanupExpiredData now s)) := by
  have h' : isKeyAvailable cfg p now (cleanupExpiredData now s) = true := by
    rw [isKeyAvailable_cleanup]; exact h
  simp only [getKey]
  rw [if_pos ⟨hp, h'⟩]

/-- Witness for C7 at the fresh one-key pool. -/
theorem c7_preferred_key_witness :
    getKey cfgDefault (some "a") false 0 oneFreeKeyState
      = some ("a", markKeyUsed "a" 0 (cleanupExpiredData 0 oneFreeKeyState)) :=
  c7_preferred_key_returned cfgDefault "a" false 0 oneFreeKeyState (by decide) (by decide)

/-- When the tier-switch counter has reached the threshold, `get_key`
without `force_paid` behaves exactly as with it. -/
theorem getKey_counter_ge_max (cfg : MgrConfig) (pref : Option String) (now : Nat)
    (s : MgrState) (h : cfg.maxFreeKeyFailures ≤ s.freeFailures) :
    getKey cfg pref false now s = getKey cfg pref true now s := by
  have hd : decide (cfg.maxFreeKeyFailures ≤ (cleanupExpiredData now s).freeFailures) = true :=
    decide_eq_true (by simpa [cleanup_freeFailures] using h)
  simp [getKey, hd]

/-- `record_failure` on a key the join finds as free increments the global
counter by exactly one. -/
theorem recordFailure_free_increments (s : MgrState) (k : String) (code : Int) (now : Nat)
    (h : freeKeyKnown s k = true) :
    (recordFailure k code now s).freeFailures = s.freeFailures + 1 := by
  unfold freeKeyKnown isFreeApiKey at h
  rw [Bool.and_eq_true] at h
  obtain ⟨h1, h2⟩ := h
  rw [List.any_eq_true] at h1
  obtain ⟨stat, hstat, hpred⟩ := h1
  have hfs : (s.keyStats.find? fun r => decide (r.key = k)).isSome := by
    rw [List.find?_isSome]
    exact ⟨stat, hstat, hpred⟩
  cases hfse : s.keyStats.find? fun r => decide (r.key = k) with
  | none => rw [hfse] at hfs; simp at hfs
  | some stat' =>
    cases hfa : s.apiKeys.find? fun r => decide (r.key = k) with
    | none => rw [hfa] at h2; simp at h2
    | some row =>
      rw [hfa] at h2
      have hrow : row.keyType = "free" := of_decide_eq_true h2
      unfold recordFailure
      rw [hfse, hfa]
      simp [hrow]

/-- `record_success` on a free key resets the global counter to zero. -/
theorem recordSuccess_free_resets (s : MgrState) (k : String) (now : Nat)
    (h : isFreeApiKey s k = true) :
    (recordSuccess k now s).freeFailures = 0 := by
  unfold isFreeApiKey at h
  cases hfa : s.apiKeys.find? fun r => decide (r.key = k) with
  | none => rw [hfa] at h; simp at h
  | some row =>
    rw [hfa] at h
    have hrow : row.keyType = "free" := of_decide_eq_true h
    unfold recordSuccess
    rw [hfa]
    simp [hrow]

/-- A map that preserves the key field preserves key-membership `any`. -/
theorem any_key_map (l : List StatRow) (f : StatRow → StatRow)
    (hf : ∀ r, (f r).key = r.key) (k : String) :
    ((l.map f).any fun r => decide (r.key = k)) = (l.any fun r => decide (r.key = k)) := by
  rw [List.any_map]
  congr 1
  funext r
  simp [Function.comp, hf r]

/-- A map that preserves the key field preserves key-membership `find?`
presence on the `api_keys` side as well. -/
theorem find?_key_map (l : List KeyRow) (f : KeyRow → KeyRow)
    (hf : ∀ r, (f r).key = r.key) (k : String) :
    ((l.map f).find? fun r => decide (r.key = k))
      = Option.map f (l.find? fun r => decide (r.key = k)) := by
  rw [List.find?_map]
  have hc : ((fun r : KeyRow => decide (r.key = k)) ∘ f)
      = fun r : KeyRow => decide (r.key = k) := by
    funext r
    simp [Function.comp, hf r]
  rw [hc]

/-- `record_failure` never touches the `api_keys` table. -/
theorem recordFailure_apiKeys (s : MgrState) (k0 : String) (c : Int) (n : Nat) :
    (recordFailure k0 c n s).apiKeys = s.apiKeys := by
  unfold recordFailure
  repeat' split
  all_goals rfl

/-- `record_failure` preserves which keys have a stats row. -/
theorem recordFailure_statKeys (s : MgrState) (k0 : String) (c : Int) (n : Nat) (k : String) :
    ((recordFailure k0 c n s).keyStats.any fun r => decide (r.key = k))
      = (s.keyStats.any fun r => decide (r.key = k)) := by
  unfold recordFailure
  repeat' split
  all_goals
    first
      | rfl
      | (apply any_key_map ; intro r ; split <;> rfl)

/-- `record_failure` leaves the free-and-known status of every key
unchanged: it touches neither `api_keys` nor any stats key. -/
theorem freeKeyKnown_recordFailure (s : MgrState) (k k0 : String) (c : Int) (n : Nat) :
    freeKeyKnown (recordFailure k0 c n s) k = freeKeyKnown s k := by
  unfold freeKeyKnown isFreeApiKey
  rw [recordFailure_statKeys, recordFailure_apiKeys]

/-- Insertion keeps exactly the old elements plus the new one. -/
theorem mem_insertRow (a b : (Nat × Nat × Nat) × KeyRow)
    (l : List ((Nat × Nat × Nat) × KeyRow)) :
    b ∈ insertRow a l ↔ b = a ∨ b ∈ l := by
  induction l with
  | nil => simp [insertRow]
  | cons c t ih =>
    unfold insertRow
    split
    · simp
    · simp only [List.mem_cons, ih]
      tauto

/-- Sorting the candidate rows does not change their membership. -/
theorem mem_sortRows (b : (Nat × Nat × Nat) × KeyRow)
    (l : List ((Nat × Nat × Nat) × KeyRow)) :
    b ∈ sortRows l ↔ b ∈ l := by
  induction l with
  | nil => simp [sortRows]
  | cons c t ih =>
    simp only [sortRows, mem_insertRow, ih, List.mem_cons]

/-- Any key the paid-tier scan selects comes from an active `api_keys` row
of tier `paid`. -/
theorem selectKey_paid_mem (cfg : MgrConfig) (pref : Option String) (now : Nat)
    (s : MgrState) (k : String) (h : selectKey cfg pref true now s = some k) :
    ∃ r ∈ s.apiKeys, r.key = k ∧ r.keyType = "paid" ∧ r.isActive = true := by
  unfold selectKey at h
  rcases Option.map_eq_some'.mp h with ⟨row, hfind, hkey⟩
  have hmem := List.mem_of_find?_eq_some hfind
  unfold candidateRows at hmem
  simp only [List.mem_map] at hmem
  obtain ⟨pair, hpair, hsnd⟩ := hmem
  rw [mem_sortRows] at hpair
  simp only [List.mem_map] at hpair
  obtain ⟨kr, hkr, hpa⟩ := hpair
  have hrowkr : row = kr := by rw [← hsnd, ← hpa]
  rcases List.mem_filter.mp hkr with ⟨hmem2, hpred⟩
  simp only [if_true, Bool.and_eq_true, decide_eq_true_eq] at hpred
  refine ⟨kr, hmem2, ?_, hpred.1.2, hpred.1.1⟩
  rw [← hrowkr]
  exact hkey

/-- C5: `acquire` targets the paid tier exactly when `force_paid` holds or
the global free-failure counter has reached `max_free_key_failures`:
(1) once the counter is at the threshold, `acquire` without `force_paid`
behaves exactly as with it; (2) an acquire that targets the paid tier
returns a paid active key (outside the preferred-key fast path);
(3) each `record_failure` on a free key adds one to the counter;
(4) one `record_success` on any free key resets it to 0; and
(5) with `max_free_key_failures = 3`, after three sequential
`record_failure` calls on free keys the next `acquire` targets paid without
`force_paid`. -/
theorem c5_tier_switch_and_reset (cfg : MgrConfig) (pref : Option String) (now : Nat) :
    (∀ s : MgrState, cfg.maxFreeKeyFailures ≤ s.freeFailures →
        getKey cfg pref false now s = getKey cfg pref true now s)
    ∧ (∀ (s : MgrState) (k : String) (s' : MgrState),
        getKey cfg none true now s = some (k, s') →
          ∃ r ∈ s.apiKeys, r.key = k ∧ r.keyType = "paid" ∧ r.isActive = true)
    ∧ (∀ (s : MgrState) (k : String) (code : Int), freeKeyKnown s k = true →
        (recordFailure k code now s).freeFailures = s.freeFailures + 1)
    ∧ (∀ (s : MgrState) (k : String), isFreeApiKey s k = true →
        (recordSuccess k now s).freeFailures = 0)
    ∧ (cfg.maxFreeKeyFailures = 3 →
        ∀ (s : MgrState) (k1 k2 k3 : String) (c1 c2 c3 : Int) (t1 t2 t3 : Nat),
          freeKeyKnown s k1 = true → freeKeyKnown s k2 = true → freeKeyKnown s k3 = true →
            getKey cfg pref false now
                (recordFailure k3 c3 t3 (recordFailure k2 c2 t2 (recordFailure k1 c1 t1 s)))
              = getKey cfg pref true now
                (recordFailure k3 c3 t3 (recordFailure k2 c2 t2 (recordFailure k1 c1 t1 s)))) := by
  refine ⟨fun s h => getKey_counter_ge_max cfg pref now s h, ?_, ?_, ?_, ?_⟩
  · intro s k s' h
    simp only [getKey, Bool.true_or] at h
    cases hsel : selectKey cfg none true now (cleanupExpiredData now s) with
    | some k0 =>
      rw [hsel] at h
      simp only [Option.some.injEq, Prod.mk.injEq] at h
      obtain ⟨r, hr, hk, hpaid, hact⟩ :=
        selectKey_paid_mem cfg none now (cleanupExpiredData now s) k0 hsel
      rw [cleanup_apiKeys] at hr
      exact ⟨r, hr, by rw [hk, h.1], hpaid, hact⟩
    | none =>
      rw [hsel] at h
      simp at h
  · exact fun s k code h => recordFailure_free_increments s k code now h
  · exact fun s k h => recordSuccess_free_resets s k now h
  · intro h3 s k1 k2 k3 c1 c2 c3 t1 t2 t3 hk1 hk2 hk3
    have hk2' : freeKeyKnown (recordFailure k1 c1 t1 s) k2 = true := by
      rw [freeKeyKnown_recordFailure]; exact hk2
    have hk3' : freeKeyKnown (recordFailure k2 c2 t2 (recordFailure k1 c1 t1 s)) k3 = true := by
      rw [freeKeyKnown_recordFailure, freeKeyKnown_recordFailure]; exact hk3
    have e1 := recordFailure_free_increments s k1 c1 t1 hk1
    have e2 := recordFailure_free_increments (recordFailure k1 c1 t1 s) k2 c2 t2 hk2'
    have e3 := recordFailure_free_increments
      (recordFailure k2 c2 t2 (recordFailure k1 c1 t1 s)) k3 c3 t3 hk3'
    apply getKey_counter_ge_max
    rw [h3, e3, e2, e1]
    omega

/-- Witness for C5: with `max_free_key_failures = 3`, after three failures
on the single free key the next acquire behaves as forced-paid, and a
success on the free key resets the counter. -/
theorem c5_tier_switch_witness :
    getKey cfg3 none false 50 threeFailuresState = getKey cfg3 none true 50 threeFailuresState
    ∧ (recordSuccess "a" 9 oneFreeKeyState).freeFailures = 0 := by
  have h := c5_tier_switch_and_reset cfg3 none 50
  refine ⟨?_, h.2.2.2.1 oneFreeKeyState "a" (by decide)⟩
  exact h.2.2.2.2 rfl oneFreeKeyState "a" "a" "a" 500 500 500 0 1 2
    (by decide) (by decide) (by decide)

/-- Bumping an error-count entry raises the value sum by exactly one. -/
theorem sumCounts_bump (m : List (Int × Nat)) (c : Int) :
    sumCounts (bumpCount m c) = sumCounts m + 1 := by
  induction m with
  | nil => simp [bumpCount, sumCounts]
  | cons p t ih =>
    unfold bumpCount
    split
    · simp only [sumCounts, List.map_cons, List.sum_cons]
      omega
    · simp only [sumCounts, List.map_cons, List.sum_cons] at ih ⊢
      omega

/-- Under the primary-key constraint, `find?` by key determines the unique
row with that key. -/
theorem eq_of_key_nodup (k : String) (stat : StatRow) :
    ∀ l : List StatRow, (l.map StatRow.key).Nodup →
      l.find? (fun r => decide (r.key = k)) = some stat →
      ∀ r ∈ l, r.key = k → r = stat := by
  intro l
  induction l with
  | nil => simp
  | cons a t ih =>
    intro hnd hfind r hr hk
    rw [List.map_cons, List.nodup_cons] at hnd
    rcases List.mem_cons.mp hr with rfl | hrt
    · have hfr : List.find? (fun x : StatRow => decide (x.key = k)) (r :: t) = some r :=
        @List.find?_cons_of_pos StatRow (fun x : StatRow => decide (x.key = k)) r t
          (decide_eq_true hk)
      rw [hfr] at hfind
      exact Option.some.inj hfind
    · by_cases hak : a.key = k
      · exact absurd (List.mem_map.mpr ⟨r, hrt, by rw [hk, hak]⟩) hnd.1
      · rw [List.find?_cons_of_neg _ (by simp [hak])] at hfind
        exact ih hnd.2 hfind r hrt hk

/-- Mapping a per-row update that preserves the error-sum property
preserves the invariant over the table. -/
theorem all_errSum_map (l : List StatRow) (f : StatRow → StatRow)
    (hf : ∀ r ∈ l, sumCounts r.errorCounts = r.failedRequests →
        sumCounts (f r).errorCounts = (f r).failedRequests)
    (h : (l.all fun r => decide (sumCounts r.errorCounts = r.failedRequests)) = true) :
    ((l.map f).all fun r => decide (sumCounts r.errorCounts = r.failedRequests)) = true := by
  rw [List.all_map, List.all_eq_true]
  rw [List.all_eq_true] at h
  intro r hr
  simp only [Function.comp_apply]
  exact decide_eq_true (hf r hr (of_decide_eq_true (h r hr)))

/-- Mapping a key-preserving update keeps the stats keys duplicate-free. -/
theorem statKeys_map_nodup (l : List StatRow) (f : StatRow → StatRow)
    (hf : ∀ r, (f r).key = r.key) (h : (l.map StatRow.key).Nodup) :
    ((l.map f).map StatRow.key).Nodup := by
  rw [List.map_map]
  have hc : (StatRow.key ∘ f) = StatRow.key := funext hf
  rw [hc]
  exact h

/-- `INSERT OR IGNORE` of a fresh stats row preserves both invariants. -/
theorem insertIgnoreStat_wf (k : String) (s : MgrState)
    (h : errSumInvB s = true) (hnd : statKeysNodup s) :
    errSumInvB (insertIgnoreStat k s) = true ∧ statKeysNodup (insertIgnoreStat k s) := by
  unfold insertIgnoreStat
  split
  · exact ⟨h, hnd⟩
  · rename_i hguard
    constructor
    · unfold errSumInvB at h ⊢
      rw [List.all_append, h, Bool.true_and]
      simp [defaultStat, sumCounts]
    · unfold statKeysNodup at hnd ⊢
      rw [List.map_append, List.nodup_append]
      refine ⟨hnd, List.nodup_singleton _, ?_⟩
      intro a ha hb
      simp only [defaultStat, List.map_cons, List.map_nil, List.mem_singleton] at hb
      apply hguard
      rw [List.any_eq_true]
      rcases List.mem_map.mp ha with ⟨r, hr, hrk⟩
      exact ⟨r, hr, decide_eq_true (by rw [hrk, hb])⟩

/-- `insertIgnoreKey` never touches the stats table. -/
theorem insertIgnoreKey_keyStats (k tier : String) (s : MgrState) :
    (insertIgnoreKey k tier s).keyStats = s.keyStats := by
  unfold insertIgnoreKey
  split <;> rfl

/-- The sync insertion loop preserves both invariants. -/
theorem syncInsertNew_wf (tier : String) :
    ∀ (ks : List String) (s : MgrState), errSumInvB s = true → statKeysNodup s →
      errSumInvB (syncInsertNew tier ks s) = true ∧ statKeysNodup (syncInsertNew tier ks s) := by
  intro ks
  induction ks with
  | nil => exact fun s h hnd => ⟨h, hnd⟩
  | cons k t ih =>
    intro s h hnd
    have hstep : errSumInvB (insertIgnoreStat k (insertIgnoreKey k tier s)) = true
        ∧ statKeysNodup (insertIgnoreStat k (insertIgnoreKey k tier s)) := by
      apply insertIgnoreStat_wf
      · unfold errSumInvB
        rw [insertIgnoreKey_keyStats]
        exact h
      · unfold statKeysNodup
        rw [insertIgnoreKey_keyStats]
        exact hnd
    exact ih _ hstep.1 hstep.2

/-- C9: every public operation of the key-pool manager preserves the
invariant that each stats row's error-count map sums to its
`failed_requests` counter (together with the `key_stats` primary-key
constraint it relies on). -/
theorem c9_error_counts_sum_invariant (cfg : MgrConfig) (now : Nat) (op : MgrOp)
    (s : MgrState) (h : errSumInvB s = true) (hnd : statKeysNodup s) :
    errSumInvB (applyOp cfg now op s) = true ∧ statKeysNodup (applyOp cfg now op s) := by
  cases op with
  | acquire pref fp =>
    simp only [applyOp]
    cases hres : getKey cfg pref fp now s with
    | none => exact ⟨h, hnd⟩
    | some r =>
      obtain ⟨k, s'⟩ := r
      rw [getKey_some_state cfg pref fp now s k s' hres]
      constructor
      · exact all_errSum_map _ _ (fun r hr hsum => by split <;> simpa using hsum) h
      · exact statKeys_map_nodup _ _ (fun r => by split <;> rfl) hnd
  | success k =>
    simp only [applyOp]
    cases hfa : s.apiKeys.find? fun r => decide (r.key = k) with
    | none =>
      unfold recordSuccess
      rw [hfa]
      exact ⟨h, hnd⟩
    | some row =>
      unfold recordSuccess
      rw [hfa]
      exact ⟨all_errSum_map _ _ (fun r hr hsum => by split <;> simpa using hsum) h,
        statKeys_map_nodup _ _ (fun r => by split <;> rfl) hnd⟩
  | failure k code =>
    simp only [applyOp]
    cases hfs : s.keyStats.find? fun r => decide (r.key = k) with
    | none =>
      unfold recordFailure
      rw [hfs]
      exact ⟨h, hnd⟩
    | some stat =>
      cases hfa : s.apiKeys.find? fun r => decide (r.key = k) with
      | none =>
        unfold recordFailure
        rw [hfs, hfa]
        exact ⟨h, hnd⟩
      | some row =>
        unfold recordFailure
        rw [hfs, hfa]
        refine ⟨all_errSum_map _ _ ?_ h,
          statKeys_map_nodup _ _ (fun r => by split <;> rfl) hnd⟩
        intro r hr hs
        split
        · rename_i hk
          have hrstat : r = stat := eq_of_key_nodup k stat s.keyStats hnd hfs r hr hk
          show sumCounts (bumpCount stat.errorCounts code) = r.failedRequests + 1
          rw [sumCounts_bump, ← hrstat, hs]
        · exact hs
  | suspend k d => exact ⟨h, hnd⟩
  | invalidate k =>
    simp only [applyOp]
    unfold markKeyInvalid
    split <;> exact ⟨h, hnd⟩
  | status => exact ⟨h, hnd⟩
  | sync rawFree rawPaid =>
    simp only [applyOp]
    unfold syncKeys
    have h1 := syncInsertNew_wf "free"
      ((syncFreeKeys rawFree rawPaid).filter fun k => !(syncInDb s k)) s h hnd
    have h2 := syncInsertNew_wf "paid"
      ((syncPaidKeys rawPaid).filter fun k => !(syncInDb s k)) _ h1.1 h1.2
    exact h2

/-- Witness for C9: a failure recorded against the fresh one-key pool keeps
the error-sum invariant. -/
theorem c9_error_counts_witness :
    errSumInvB (applyOp cfgDefault 0 (.failure "a" 500) oneFreeKeyState) = true
    ∧ statKeysNodup (applyOp cfgDefault 0 (.failure "a" 500) oneFreeKeyState) := by
  have h := c9_error_counts_sum_invariant cfgDefault 0 (.failure "a" 500) oneFreeKeyState
    (by decide) (by decide)
  exact h

end Theorems
